import Mathlib

/-!
Shallow embedding of the ChatSpeed client script (src/script.js) and proofs
about its state/event coordination layer: the state store (StateManager),
the notification queue (NotificationManager), the reconnecting channel
client (WebSocketManager), the optimistic mutation pipeline (PostManager)
and the media validation logic (MediaManager).

DOM rendering, CSS classes and logging are presentation effects and are not
modelled, except where a manager reads DOM state back (the reaction button
active class, the toast element attachment) or where the claims speak about
them (the removal of a toast element from its container).
-/

namespace ChatSpeed

/-! ## Configuration (CONFIG object, script.js lines 4-14) -/

def NOTIFICATION_TIMEOUT : Int := 5000

def MAX_FILE_SIZE : Nat := 10 * 1024 * 1024

def SUPPORTED_FORMATS : List String := ["jpg", "jpeg", "png", "gif", "mp4", "webm"]

/-- A notification request: the arguments of a call to
NotificationManager.show, i.e. (message, type, duration). A duration that
is omitted in the source defaults to CONFIG.NOTIFICATION_TIMEOUT = 5000. -/
structure NotifReq where
  message : String
  ntype : String
  duration : Int
deriving DecidableEq

/-! ## State store (class StateManager, script.js lines 17-63)

JavaScript objects and Maps are per-key stores; we embed them as functions
from keys to optional values (absent key = undefined / Map miss). Listener
callbacks are opaque function objects in the source; we embed them as
identifiers (Nat), and an invocation callback(newValue, oldValue) is
recorded as an SMEvent. A JavaScript Set keeps insertion order and ignores
duplicate additions, which the listener-list operations below reproduce. -/

/-- One invocation of a subscriber callback with (newValue, oldValue). -/
structure SMEvent (α : Type) where
  callback : Nat
  newValue : α
  oldValue : Option α
deriving DecidableEq

structure StateManager (α : Type) where
  state : String → Option α
  listeners : String → Option (List Nat)

/-- StateManager.getState: return this.state[key] (undefined = none). -/
def getState {α : Type} (m : StateManager α) (k : String) : Option α :=
  m.state k

/-- The listener set for a key, empty when the key has no set. -/
def listenersFor {α : Type} (m : StateManager α) (k : String) : List Nat :=
  (m.listeners k).getD []

/-- StateManager.notifyListeners: if there is a listener set for the key,
invoke every callback in it, in insertion order, with (newValue, oldValue). -/
def notifyListeners {α : Type} (m : StateManager α) (k : String) (newValue : α)
    (oldValue : Option α) : List (SMEvent α) :=
  match m.listeners k with
  | some cs => cs.map (fun c => { callback := c, newValue := newValue, oldValue := oldValue })
  | none => []

/-- StateManager.setState: read the old value, store the new value, then
notify the listeners of the key with (newValue, oldValue). The returned
event list is produced by the call itself (synchronous notification). -/
def setState {α : Type} (m : StateManager α) (k : String) (v : α) :
    StateManager α × List (SMEvent α) :=
  let oldValue := m.state k
  let m' : StateManager α :=
    { m with state := fun k' => if k' = k then some v else m.state k' }
  (m', notifyListeners m' k v oldValue)

/-- StateManager.subscribe: create the listener set for the key when absent,
then add the callback to it (a Set add: no-op when already present,
otherwise appended at the end, preserving insertion order). -/
def subscribe {α : Type} (m : StateManager α) (k : String) (c : Nat) : StateManager α :=
  let base : List Nat := (m.listeners k).getD []
  let cs' : List Nat := if c ∈ base then base else base ++ [c]
  { m with listeners := fun k' => if k' = k then some cs' else m.listeners k' }

/-- StateManager.unsubscribe: when the key has a listener set, delete the
callback from it; otherwise do nothing. -/
def unsubscribe {α : Type} (m : StateManager α) (k : String) (c : Nat) : StateManager α :=
  match m.listeners k with
  | some cs =>
      { m with listeners := fun k' => if k' = k then some (cs.filter (fun x => x != c)) else m.listeners k' }
  | none => m

/-- Run a sequence of setState calls on one key, collecting the event list
of each call. -/
def runSets {α : Type} (m : StateManager α) (k : String) :
    List α → StateManager α × List (List (SMEvent α))
  | [] => (m, [])
  | v :: vs =>
    let r := setState m k v
    let rest := runSets r.1 k vs
    (rest.1, r.2 :: rest.2)

/-- Statement helper for the state-store claim: the event lists that a
sequence of setState calls on one key must produce, given the listener set
of the key and the value held before the first call. -/
def expectedEventLists {α : Type} (ls : List Nat) :
    Option α → List α → List (List (SMEvent α))
  | _, [] => []
  | prev, v :: vs =>
    (ls.map fun c => { callback := c, newValue := v, oldValue := prev }) ::
      expectedEventLists ls (some v) vs

/-! ## Notification queue (class NotificationManager, script.js lines 220-287)

The source uses setTimeout for the auto-removal after a positive duration
and for the fixed 300 ms removal transition. We embed the timer queue
explicitly: a timer is (absolute fire time, action); the browser fires
timers in fire-time order, ties broken by scheduling order. The 100 ms
animation timer that only toggles a CSS class has no state effect and is
omitted. generateUUID produces fresh ids; we embed freshness with a
counter. The toast element being a child of the container is the field
attached; removeChild is the removal event recorded in removedEvents. -/

inductive TimerAct where
  /-- The setTimeout(() => this.remove(id), duration) callback of show. -/
  | autoRemove (nid : Nat)
  /-- The 300 ms setTimeout callback inside remove that detaches the toast
  element (guarded by a parentNode check) and filters this.notifications. -/
  | finishRemove (nid : Nat)
deriving DecidableEq

structure Notif where
  nid : Nat
  message : String
  ntype : String
deriving DecidableEq

structure NotificationManager where
  notifications : List Notif
  attached : List Nat
  timers : List (Nat × TimerAct)
  removedEvents : List Nat
  nextId : Nat
deriving DecidableEq

/-- The freshly constructed manager: empty notification list, no toasts in
the container, no pending timers. -/
def initNM : NotificationManager :=
  { notifications := [], attached := [], timers := [], removedEvents := [], nextId := 0 }

/-- NotificationManager.show (renamed: show is a Lean keyword): create a
notification with a fresh id, append its element to the container, push it
onto this.notifications, and when duration > 0 schedule the auto removal
after duration milliseconds. Returns the id. -/
def showToast (nm : NotificationManager) (now : Nat) (message : String)
    (ntype : String) (duration : Int) : NotificationManager × Nat :=
  let nid := nm.nextId
  ({ nm with
      attached := nm.attached ++ [nid],
      notifications := nm.notifications ++ [{ nid := nid, message := message, ntype := ntype }],
      timers :=
        if duration > 0 then nm.timers ++ [(now + duration.toNat, TimerAct.autoRemove nid)]
        else nm.timers,
      nextId := nid + 1 }, nid)

/-- NotificationManager.remove: find the notification by id in
this.notifications; when found, schedule the 300 ms finish callback
(the CSS class toggle has no state effect); when not found, do nothing. -/
def remove (nm : NotificationManager) (now : Nat) (nid : Nat) : NotificationManager :=
  if nm.notifications.any (fun n => n.nid == nid) then
    { nm with timers := nm.timers ++ [(now + 300, TimerAct.finishRemove nid)] }
  else nm

/-- The body of the 300 ms callback inside remove: when the element is
still in the container, remove it (the single removal event); then filter
the notification out of this.notifications (unconditionally). -/
def finishRemoveRun (nm : NotificationManager) (nid : Nat) : NotificationManager :=
  let nm1 :=
    if nm.attached.any (fun x => x == nid) then
      { nm with
          attached := nm.attached.filter (fun x => x != nid),
          removedEvents := nm.removedEvents ++ [nid] }
    else nm
  { nm1 with notifications := nm1.notifications.filter (fun n => n.nid != nid) }

/-- Execute one fired timer at its fire time. -/
def execTimer (nm : NotificationManager) (now : Nat) : TimerAct → NotificationManager
  | TimerAct.autoRemove nid => remove nm now nid
  | TimerAct.finishRemove nid => finishRemoveRun nm nid

/-- The earliest fire time among the timers due at or before t. -/
def dueMin : List (Nat × TimerAct) → Nat → Option Nat
  | [], _ => none
  | (tm, _) :: rest, t =>
    let r := dueMin rest t
    if tm ≤ t then
      match r with
      | none => some tm
      | some m => some (min tm m)
    else r

/-- Extract the first timer in scheduling order with the given fire time,
together with the remaining timers. -/
def firstAt : List (Nat × TimerAct) → Nat → Option (TimerAct × List (Nat × TimerAct))
  | [], _ => none
  | (tm, a) :: rest, m =>
    if tm = m then some (a, rest)
    else
      match firstAt rest m with
      | some (a', rest') => some (a', (tm, a) :: rest')
      | none => none

/-- Termination weight: an autoRemove timer may schedule one finishRemove
timer when it fires, a finishRemove timer schedules nothing. -/
def timerWeight : TimerAct → Nat
  | TimerAct.autoRemove _ => 2
  | TimerAct.finishRemove _ => 1

def weightSum (ts : List (Nat × TimerAct)) : Nat :=
  (ts.map (fun x => timerWeight x.2)).sum

theorem dueMin_mem {ts : List (Nat × TimerAct)} {t m : Nat}
    (h : dueMin ts t = some m) : ∃ a, (m, a) ∈ ts := by
  induction ts with
  | nil => simp [dueMin] at h
  | cons hd tl ih =>
    obtain ⟨tm, a⟩ := hd
    simp only [dueMin] at h
    by_cases hle : tm ≤ t
    · rw [if_pos hle] at h
      cases hr : dueMin tl t with
      | none =>
        rw [hr] at h
        simp at h
        exact ⟨a, by simp [h]⟩
      | some m' =>
        rw [hr] at h
        simp at h
        rcases le_total tm m' with hc | hc
        · rw [min_eq_left hc] at h
          exact ⟨a, by rw [h]; exact List.mem_cons_self _ _⟩
        · rw [min_eq_right hc] at h
          obtain ⟨a', ha'⟩ := ih (by rw [hr, h])
          exact ⟨a', by simp [ha']⟩
    · rw [if_neg hle] at h
      obtain ⟨a', ha'⟩ := ih h
      exact ⟨a', by simp [ha']⟩

theorem firstAt_isSome_of_mem {ts : List (Nat × TimerAct)} {m : Nat} {a : TimerAct}
    (h : (m, a) ∈ ts) : (firstAt ts m).isSome := by
  induction ts with
  | nil => simp at h
  | cons hd tl ih =>
    obtain ⟨tm, b⟩ := hd
    simp only [firstAt]
    by_cases he : tm = m
    · simp [he]
    · rw [if_neg he]
      rcases List.mem_cons.mp h with hh | hh
      · exact absurd (by simpa using congrArg Prod.fst hh.symm) he
      · have := ih hh
        cases hfa : firstAt tl m with
        | none => rw [hfa] at this; simp at this
        | some p => obtain ⟨a', rest'⟩ := p; simp

theorem firstAt_weight {ts : List (Nat × TimerAct)} {m : Nat} {a : TimerAct}
    {rest : List (Nat × TimerAct)} (h : firstAt ts m = some (a, rest)) :
    weightSum ts = timerWeight a + weightSum rest := by
  induction ts generalizing rest with
  | nil => simp [firstAt] at h
  | cons hd tl ih =>
    obtain ⟨tm, b⟩ := hd
    simp only [firstAt] at h
    by_cases he : tm = m
    · rw [if_pos he] at h
      simp at h
      obtain ⟨h1, h2⟩ := h
      subst h1; subst h2
      simp [weightSum]
    · rw [if_neg he] at h
      cases hfa : firstAt tl m with
      | none => rw [hfa] at h; simp at h
      | some p =>
        obtain ⟨a', rest'⟩ := p
        rw [hfa] at h
        simp at h
        obtain ⟨h1, h2⟩ := h
        subst h1
        have := ih hfa
        subst h2
        simp [weightSum] at this ⊢
        omega

theorem remove_weight (nm : NotificationManager) (now nid : Nat) :
    weightSum (remove nm now nid).timers ≤ weightSum nm.timers + 1 := by
  unfold remove
  split
  · simp [weightSum, timerWeight]
  · omega

theorem execTimer_weight (nm : NotificationManager) (now : Nat) (a : TimerAct) :
    weightSum (execTimer nm now a).timers + 1 ≤ weightSum nm.timers + timerWeight a := by
  cases a with
  | autoRemove nid =>
    have := remove_weight nm now nid
    simp only [execTimer, timerWeight]
    omega
  | finishRemove nid =>
    simp [execTimer, finishRemoveRun, timerWeight]
    split <;> simp

/-- Fire every pending timer due at or before t, in fire-time order with
ties broken by scheduling order (the browser event loop up to time t). -/
def runUntil (nm : NotificationManager) (t : Nat) : NotificationManager :=
  match h1 : dueMin nm.timers t with
  | none => nm
  | some m =>
    match h2 : firstAt nm.timers m with
    | none => nm
    | some (a, rest) => runUntil (execTimer { nm with timers := rest } m a) t
termination_by weightSum nm.timers
decreasing_by
  have hw := firstAt_weight h2
  have he := execTimer_weight { nm with timers := rest } m a
  simp only at he
  omega

theorem runUntil_none {nm : NotificationManager} {t : Nat}
    (h : dueMin nm.timers t = none) : runUntil nm t = nm := by
  rw [runUntil]
  split
  · rfl
  · rename_i m heq
    rw [h] at heq
    simp at heq

theorem runUntil_nil {nm : NotificationManager} {t : Nat}
    (h : nm.timers = []) : runUntil nm t = nm :=
  runUntil_none (by rw [h]; rfl)

theorem runUntil_step {nm : NotificationManager} {t m : Nat} {a : TimerAct}
    {rest : List (Nat × TimerAct)}
    (h1 : dueMin nm.timers t = some m) (h2 : firstAt nm.timers m = some (a, rest)) :
    runUntil nm t = runUntil (execTimer { nm with timers := rest } m a) t := by
  conv_lhs => rw [runUntil]
  split
  · rename_i heq
    rw [h1] at heq
    simp at heq
  · rename_i m' heq
    rw [h1] at heq
    injection heq with hm
    subst hm
    split
    · rename_i heq2
      rw [h2] at heq2
      simp at heq2
    · rename_i a' rest' heq2
      rw [h2] at heq2
      simp at heq2
      obtain ⟨rfl, rfl⟩ := heq2
      rfl

theorem dueMin_single (tm : Nat) (act : TimerAct) (t : Nat) (h : tm ≤ t) :
    dueMin [(tm, act)] t = some tm := by
  simp [dueMin, h]

theorem dueMin_pair (tm : Nat) (a b : TimerAct) (t : Nat) (h : tm ≤ t) :
    dueMin [(tm, a), (tm, b)] t = some tm := by
  simp [dueMin, h]

theorem firstAt_head (tm : Nat) (a : TimerAct) (rest : List (Nat × TimerAct)) :
    firstAt ((tm, a) :: rest) tm = some (a, rest) := by
  simp [firstAt]

/-! ## Reconnecting channel client (class WebSocketManager, script.js lines 292-407)

The constructor sets reconnectAttempts = 0, maxReconnectAttempts = 5,
reconnectDelay = 1000 and heartbeatInterval = null; heartbeatActive embeds
whether the heartbeat interval timer is set. handleReconnect schedules a
reconnect after reconnectDelay * 2 ^ reconnectAttempts when attempts remain
and increments the counter inside the scheduled callback; otherwise it
shows a notification with duration 0. -/

def maxReconnectAttempts : Nat := 5

def reconnectDelay : Nat := 1000

structure WebSocketManager where
  reconnectAttempts : Nat
  heartbeatActive : Bool
deriving DecidableEq

/-- The freshly constructed client: zero reconnect attempts, no heartbeat
interval set. -/
def initWS : WebSocketManager :=
  { reconnectAttempts := 0, heartbeatActive := false }

/-- The notification request of the retries-exhausted branch of
handleReconnect: show('Connection lost. Please refresh the page.',
'danger', 0). -/
def connectionLostNotif : NotifReq :=
  { message := "Connection lost. Please refresh the page.", ntype := "danger", duration := 0 }

/-- The observable outcome of one call to WebSocketManager.handleReconnect:
either a reconnect is scheduled after the given delay (the counter is
incremented by the scheduled callback, giving the next state), or the
retries are exhausted and the persistent notification is requested. -/
inductive ReconnectOutcome where
  | scheduled (delay : Nat) (next : WebSocketManager)
  | exhausted (n : NotifReq)
deriving DecidableEq

/-- WebSocketManager.handleReconnect: when reconnectAttempts <
maxReconnectAttempts, schedule the reconnect callback after
reconnectDelay * 2 ^ reconnectAttempts ms (the callback increments the
counter and calls connect); otherwise show the duration-0 notification. -/
def handleReconnect (s : WebSocketManager) : ReconnectOutcome :=
  if s.reconnectAttempts < maxReconnectAttempts then
    ReconnectOutcome.scheduled (reconnectDelay * 2 ^ s.reconnectAttempts)
      { s with reconnectAttempts := s.reconnectAttempts + 1 }
  else
    ReconnectOutcome.exhausted connectionLostNotif

/-- The state after one handleReconnect call has fully resolved: after a
scheduled reconnect fires, the counter has been incremented; the exhausted
branch leaves the state unchanged. -/
def outcomeState (s : WebSocketManager) : ReconnectOutcome → WebSocketManager
  | ReconnectOutcome.scheduled _ next => next
  | ReconnectOutcome.exhausted _ => s

/-- A run of k consecutive connection failures, each one triggering
handleReconnect (a scheduled reconnect fires, the reconnected attempt
fails immediately, and the next failure triggers handleReconnect again). -/
def simulateFailures (s : WebSocketManager) : Nat → List ReconnectOutcome
  | 0 => []
  | Nat.succ k =>
    let o := handleReconnect s
    o :: simulateFailures (outcomeState s o) k

/-- The transport events the event listeners of setupEventListeners react
to, plus the firing of a scheduled reconnect callback. -/
inductive WSEvent where
  /-- ws.onopen: reset reconnectAttempts to 0, start the heartbeat, show a
  success notification. -/
  | wopen
  /-- ws.onclose: stop the heartbeat, then call handleReconnect. -/
  | wclose
  /-- ws.onerror: console.error only; no state change. -/
  | werror
  /-- The setTimeout callback of handleReconnect firing: increment
  reconnectAttempts and call connect (which starts no heartbeat itself). -/
  | retryFire
deriving DecidableEq

/-- The state transition of each event handler of WebSocketManager. -/
def handleEvent (s : WebSocketManager) : WSEvent → WebSocketManager
  | WSEvent.wopen => { s with reconnectAttempts := 0, heartbeatActive := true }
  | WSEvent.wclose => { s with heartbeatActive := false }
  | WSEvent.werror => s
  | WSEvent.retryFire => { s with reconnectAttempts := s.reconnectAttempts + 1 }

def runEvents (s : WebSocketManager) (es : List WSEvent) : WebSocketManager :=
  es.foldl handleEvent s

/-! ## Optimistic mutation pipeline (class PostManager, script.js lines 412-778)

A post record: the fields of the postData object built by createPost that
the pipeline operates on. Presentation-only fields (media, privacy,
timestamp, author, reactions) and the DOM-based HTML escaping of the
content are not modelled; the generateUUID id is embedded as a Nat
provided by the caller. The active flag embeds the DOM state of the post's
reaction button (the active CSS class read and written by toggleReaction). -/

structure Post where
  id : Nat
  content : String
  likes : Nat
  comments : Nat
  shares : Nat
  active : Bool
deriving DecidableEq

structure PostManager where
  posts : List Post
deriving DecidableEq

/-- The first (pre-confirmation) phase of PostManager.createPost: build
postData with zero counters, unshift it onto this.posts and render it.
This happens before the confirmation request is issued. -/
def createPostLocal (pm : PostManager) (newId : Nat) (content : String) :
    PostManager × Post :=
  let postData : Post :=
    { id := newId, content := content, likes := 0, comments := 0, shares := 0, active := false }
  ({ posts := postData :: pm.posts }, postData)

/-- The second phase of PostManager.createPost, once the sendToServer
promise resolves (success = true) or rejects (success = false): on success
show a success notification (and forward the post over the channel); on
failure show a failure notification and filter the record with the new
post's id out of this.posts. -/
def createPostConfirm (pm : PostManager) (postData : Post) (success : Bool) :
    PostManager × List NotifReq :=
  if success then
    (pm, [{ message := "Post created successfully!", ntype := "success",
            duration := NOTIFICATION_TIMEOUT }])
  else
    ({ posts := pm.posts.filter (fun p => p.id != postData.id) },
     [{ message := "Failed to create post. Please try again.", ntype := "danger",
        duration := NOTIFICATION_TIMEOUT }])

/-- PostManager.createPost, with the confirmation outcome as input: the
optimistic phase followed by the confirmation phase. -/
def createPost (pm : PostManager) (newId : Nat) (content : String) (success : Bool) :
    PostManager × Post × List NotifReq :=
  let r1 := createPostLocal pm newId content
  let r2 := createPostConfirm r1.1 r1.2 success
  (r2.1, r1.2, r2.2)

/-- Update the first post with the given id, like the in-place mutation of
the object returned by this.posts.find. -/
def updateFirst (ps : List Post) (postId : Nat) (f : Post → Post) : List Post :=
  match ps with
  | [] => []
  | p :: rest => if p.id = postId then f p :: rest else p :: updateFirst rest postId f

/-- The first (pre-confirmation) phase of PostManager.toggleReaction: find
the post by id (return unchanged when absent); read the reaction button's
active class; when active, decrement likes (clamped at 0, Math.max) and
clear the class; when inactive, increment likes and set the class. -/
def toggleReactionLocal (pm : PostManager) (postId : Nat) : PostManager :=
  match pm.posts.find? (fun p => p.id == postId) with
  | none => pm
  | some _ =>
    { posts := updateFirst pm.posts postId (fun p =>
        if p.active then { p with likes := p.likes - 1, active := false }
        else { p with likes := p.likes + 1, active := true }) }

/-- PostManager.toggleReaction with the confirmation outcome as input. The
confirmation phase mirrors script.js lines 658-666: the try block awaits
sendToServer and does nothing further on success, and the catch block only
calls console.error - in neither case is this.posts changed or a
notification shown, so the local change is kept even on failure. -/
def toggleReaction (pm : PostManager) (postId : Nat) (_success : Bool) :
    PostManager × List NotifReq :=
  let pm1 := toggleReactionLocal pm postId
  (pm1, [])

/-! ## Media validation (class MediaManager, script.js lines 928-1098) -/

/-- A selected file: the name and size fields read by validateFile. -/
structure JsFile where
  name : String
  size : Nat
deriving DecidableEq

structure MediaManager where
  selectedFiles : List JsFile
deriving DecidableEq

/-- The freshly constructed manager: no selected files; this.maxFiles = 10. -/
def initMM : MediaManager :=
  { selectedFiles := [] }

def maxFiles : Nat := 10

/-- JavaScript String.split with the single-character separator '.',
written on the character list of the string: splitting the empty string
yields [""], a separator occurrence always opens a new segment. -/
def splitOnDot : List Char → List (List Char)
  | [] => [[]]
  | x :: xs =>
    match splitOnDot xs with
    | [] => [[]]
    | seg :: rest => if x = '.' then [] :: seg :: rest else (x :: seg) :: rest

/-- file.name.split('.').pop().toLowerCase(): a JavaScript split always
yields a non-empty array, so pop returns its last element, which is then
lowercased character by character. -/
def fileExtension (f : JsFile) : String :=
  String.mk (((splitOnDot f.name.data).getLastD []).map Char.toLower)

/-- MediaManager.validateFile: reject a file over MAX_FILE_SIZE, then a
file whose extension is not in SUPPORTED_FORMATS, each with a danger
notification; otherwise accept. Returns the boolean and the notifications
the call shows. -/
def validateFile (f : JsFile) : Bool × List NotifReq :=
  if f.size > MAX_FILE_SIZE then
    (false, [{ message := "File " ++ f.name ++ " is too large (max 10MB)",
               ntype := "danger", duration := NOTIFICATION_TIMEOUT }])
  else if ¬ (SUPPORTED_FORMATS.contains (fileExtension f)) then
    (false, [{ message := "File type " ++ fileExtension f ++ " not supported",
               ntype := "danger", duration := NOTIFICATION_TIMEOUT }])
  else
    (true, [])

/-- MediaManager.processFiles: filter the batch through validateFile (which
shows a notification per rejected file); when no valid file remains, warn
and stop; when the valid files would push selectedFiles past maxFiles,
warn and stop (admitting none of the batch); otherwise push every valid
file. Returns the new state and all notifications shown. -/
def processFiles (mm : MediaManager) (files : List JsFile) :
    MediaManager × List NotifReq :=
  let valNotifs := (files.map (fun f => (validateFile f).2)).flatten
  let validFiles := files.filter (fun f => (validateFile f).1)
  if validFiles.length = 0 then
    (mm, valNotifs ++ [{ message := "No valid files selected", ntype := "warning",
                         duration := NOTIFICATION_TIMEOUT }])
  else if mm.selectedFiles.length + validFiles.length > maxFiles then
    (mm, valNotifs ++ [{ message := "Maximum 10 files allowed", ntype := "warning",
                         duration := NOTIFICATION_TIMEOUT }])
  else
    ({ selectedFiles := mm.selectedFiles ++ validFiles }, valNotifs)

/-- MediaManager.removeFile: drop every selected file with the given name. -/
def removeFile (mm : MediaManager) (fileName : String) : MediaManager :=
  { selectedFiles := mm.selectedFiles.filter (fun f => f.name != fileName) }

/-- MediaManager.clearAll: empty the selection. -/
def clearAll (_mm : MediaManager) : MediaManager :=
  { selectedFiles := [] }

/-! ## Theorems -/

/-- Helper for the heartbeat claim: once the heartbeat interval is cleared,
no later close, error or reconnect-callback event sets it again; only a
transport open event does. -/
theorem heartbeat_stays_off (s : WebSocketManager) (es : List WSEvent)
    (hs : s.heartbeatActive = false) (ho : WSEvent.wopen ∉ es) :
    (runEvents s es).heartbeatActive = false := by
  induction es generalizing s with
  | nil => simpa [runEvents] using hs
  | cons e es ih =>
    simp only [List.mem_cons, not_or] at ho
    have hstep : (handleEvent s e).heartbeatActive = false := by
      cases e with
      | wopen => exact absurd rfl ho.1
      | wclose => rfl
      | werror => exact hs
      | retryFire => exact hs
    have : runEvents s (e :: es) = runEvents (handleEvent s e) es := rfl
    rw [this]
    exact ih (handleEvent s e) hstep ho.2

/-- Claim C2: starting from retry count 0 with base delay 1000 ms, the
n-th (1-indexed) reconnect attempt of WebSocketManager.handleReconnect is
scheduled after reconnectDelay * 2 ^ (n - 1) milliseconds, so five
consecutive failures schedule reconnects after 1000, 2000, 4000, 8000 and
16000 ms. -/
theorem C2_reconnect_backoff :
    simulateFailures initWS 5 =
      [ReconnectOutcome.scheduled 1000 ⟨1, false⟩,
       ReconnectOutcome.scheduled 2000 ⟨2, false⟩,
       ReconnectOutcome.scheduled 4000 ⟨3, false⟩,
       ReconnectOutcome.scheduled 8000 ⟨4, false⟩,
       ReconnectOutcome.scheduled 16000 ⟨5, false⟩]
    ∧ ∀ n : Nat, n < 6 → 1 ≤ n →
        (simulateFailures initWS 6)[n - 1]? =
          some (ReconnectOutcome.scheduled (reconnectDelay * 2 ^ (n - 1)) ⟨n, false⟩) := by
  constructor
  · decide
  · decide

/-- Claim C2 witness: the fifth attempt is scheduled after
reconnectDelay * 2 ^ 4 = 16000 ms. -/
theorem C2_reconnect_backoff_witness :
    (simulateFailures initWS 6)[5 - 1]? =
      some (ReconnectOutcome.scheduled (reconnectDelay * 2 ^ (5 - 1)) ⟨5, false⟩) :=
  C2_reconnect_backoff.2 5 (by decide) (by decide)

/-- Claim C3: six consecutive immediate failures from retry count 0 yield
exactly five scheduled reconnects (with delays 1000..16000 ms); the sixth
failure requests the duration-0 notification and schedules no sixth
reconnect; once the maximum attempt count is reached, every further
failure again yields no reconnect; and a notification shown with duration
0 never has an auto-removal scheduled, so it stays present at every later
time (until manually removed). -/
theorem C3_exhaustion_persistent :
    (simulateFailures initWS 6 =
      [ReconnectOutcome.scheduled 1000 ⟨1, false⟩,
       ReconnectOutcome.scheduled 2000 ⟨2, false⟩,
       ReconnectOutcome.scheduled 4000 ⟨3, false⟩,
       ReconnectOutcome.scheduled 8000 ⟨4, false⟩,
       ReconnectOutcome.scheduled 16000 ⟨5, false⟩,
       ReconnectOutcome.exhausted connectionLostNotif])
    ∧ ((simulateFailures initWS 6).countP
        (fun o => match o with
          | ReconnectOutcome.scheduled _ _ => true
          | ReconnectOutcome.exhausted _ => false) = 5)
    ∧ connectionLostNotif.duration = 0
    ∧ (∀ s : WebSocketManager, maxReconnectAttempts ≤ s.reconnectAttempts →
        ∀ k : Nat, ∀ o ∈ simulateFailures s k, o = ReconnectOutcome.exhausted connectionLostNotif)
    ∧ (∀ (nm : NotificationManager) (now : Nat) (msg ty : String),
        nm.timers = [] →
        (showToast nm now msg ty 0).1.timers = []
        ∧ ∀ t : Nat,
            runUntil (showToast nm now msg ty 0).1 t = (showToast nm now msg ty 0).1
            ∧ (showToast nm now msg ty 0).2 ∈
                ((runUntil (showToast nm now msg ty 0).1 t).notifications.map Notif.nid)) := by
  refine ⟨by decide, by decide, by decide, ?_, ?_⟩
  · intro s hs k
    induction k generalizing s with
    | zero => intro o ho; simp [simulateFailures] at ho
    | succ k ih =>
      intro o ho
      have hnr : handleReconnect s = ReconnectOutcome.exhausted connectionLostNotif := by
        unfold handleReconnect
        rw [if_neg (Nat.not_lt.mpr hs)]
      simp only [simulateFailures, hnr, outcomeState] at ho
      rcases List.mem_cons.mp ho with h | h
      · exact h
      · exact ih s hs o h
  · intro nm now msg ty htm
    have htimers : (showToast nm now msg ty 0).1.timers = [] := by
      simp [showToast, htm]
    refine ⟨htimers, ?_⟩
    intro t
    rw [runUntil_nil htimers]
    refine ⟨rfl, ?_⟩
    simp [showToast]

/-- Claim C3 witness: instantiating the universally quantified parts at the
sixth-failure state and at the fresh notification manager. -/
theorem C3_exhaustion_persistent_witness :
    (∀ o ∈ simulateFailures ⟨5, false⟩ 3, o = ReconnectOutcome.exhausted connectionLostNotif)
    ∧ runUntil (showToast initNM 0 "Connection lost. Please refresh the page." "danger" 0).1 99999
        = (showToast initNM 0 "Connection lost. Please refresh the page." "danger" 0).1 :=
  ⟨C3_exhaustion_persistent.2.2.2.1 ⟨5, false⟩ (by decide) 3,
   ((C3_exhaustion_persistent.2.2.2.2 initNM 0
      "Connection lost. Please refresh the page." "danger" rfl).2 99999).1⟩

/-- Claim C8 counterexample: the claim says the liveness probe is stopped
whenever the connection leaves the open state via a transport close or
error event. Concretely after the events [open, error] the heartbeat
interval is still set: the onerror handler (script.js lines 334-336) only
logs and neither stops the heartbeat nor transitions state, so an error
event alone does not stop the probe. -/
theorem C8_heartbeat_counterexample :
    (runEvents initWS [WSEvent.wopen, WSEvent.werror]).heartbeatActive = true := by
  decide

/-- Claim C8 (amended): the heartbeat is started by the transport open
event, which also resets the retry counter to 0; it is stopped by the
transport close event and stays stopped (so no ping is dispatched) until
the next open event; a transport error event leaves the state, including
the running heartbeat, unchanged (its handler only logs). -/
theorem C8_heartbeat_amended (s : WebSocketManager) (es : List WSEvent) :
    (handleEvent s WSEvent.wopen).heartbeatActive = true
    ∧ (handleEvent s WSEvent.wopen).reconnectAttempts = 0
    ∧ (handleEvent s WSEvent.wclose).heartbeatActive = false
    ∧ handleEvent s WSEvent.werror = s
    ∧ (WSEvent.wopen ∉ es →
        (runEvents (handleEvent s WSEvent.wclose) es).heartbeatActive = false) := by
  refine ⟨rfl, rfl, rfl, rfl, ?_⟩
  intro ho
  exact heartbeat_stays_off _ es rfl ho

/-- Claim C8 witness: after a close followed by an error and a reconnect
firing, the heartbeat of a previously open connection remains stopped. -/
theorem C8_heartbeat_amended_witness :
    (runEvents (handleEvent ⟨0, true⟩ WSEvent.wclose) [WSEvent.werror, WSEvent.retryFire]).heartbeatActive
      = false :=
  (C8_heartbeat_amended ⟨0, true⟩ [WSEvent.werror, WSEvent.retryFire]).2.2.2.2 (by decide)

theorem setState_listeners {α : Type} (m : StateManager α) (k : String) (v : α) :
    (setState m k v).1.listeners = m.listeners := rfl

theorem getState_setState {α : Type} (m : StateManager α) (k : String) (v : α) :
    getState (setState m k v).1 k = some v := by
  simp [getState, setState]

/-- One setState call emits exactly one invocation per subscriber of the
key, in subscription order, carrying the new value and the value held
before the call. -/
theorem setState_events {α : Type} (m : StateManager α) (k : String) (v : α) :
    (setState m k v).2 = (listenersFor m k).map
      (fun c => { callback := c, newValue := v, oldValue := getState m k }) := by
  simp only [setState, notifyListeners, listenersFor, getState]
  cases m.listeners k <;> simp

/-- Claim C4: for every key and every finite sequence of setState calls on
it, getState afterwards returns the last value written, and the i-th call
invokes each subscriber of the key exactly once, in subscription order,
with (newValue, oldValue) where oldValue is the value held immediately
before that call (the events being returned by the call itself embeds the
synchronous, before-return notification). -/
theorem C4_state_store (α : Type) (m : StateManager α) (k : String) (vs : List α) :
    (runSets m k vs).2 = expectedEventLists (listenersFor m k) (getState m k) vs
    ∧ (vs ≠ [] → getState (runSets m k vs).1 k = vs.getLast?) := by
  induction vs generalizing m with
  | nil => exact ⟨rfl, fun h => absurd rfl h⟩
  | cons v vs ih =>
    have hunfold :
        runSets m k (v :: vs) =
          ((runSets (setState m k v).1 k vs).1,
            (setState m k v).2 :: (runSets (setState m k v).1 k vs).2) := rfl
    have hl : listenersFor (setState m k v).1 k = listenersFor m k := rfl
    have hg : getState (setState m k v).1 k = some v := getState_setState m k v
    have ihs := ih (setState m k v).1
    constructor
    · rw [hunfold]
      simp only [expectedEventLists]
      rw [setState_events m k v]
      refine congrArg _ ?_
      rw [ihs.1, hl, hg]
    · intro _
      rw [hunfold]
      cases vs with
      | nil =>
        have : runSets (setState m k v).1 k [] = ((setState m k v).1, []) := rfl
        rw [this]
        simpa using hg
      | cons v' vs' =>
        have h2 := ihs.2 (by simp)
        rw [List.getLast?_cons_cons]
        exact h2

/-- Claim C4 witness: two subscribers of the theme key both receive
(dark, light) from a single set, and getState returns the last value. -/
theorem C4_state_store_witness :
    (runSets
        { state := fun k => if k = "theme" then some "light" else none,
          listeners := fun k => if k = "theme" then some [1, 2] else none }
        "theme" ["dark"]).2 =
      expectedEventLists [1, 2] (some "light") ["dark"]
    ∧ getState
        (runSets
          { state := fun k => if k = "theme" then some "light" else none,
            listeners := fun k => if k = "theme" then some [1, 2] else none }
          "theme" ["dark"]).1 "theme" = ["dark"].getLast? := by
  have h := C4_state_store String
    { state := fun k => if k = "theme" then some "light" else none,
      listeners := fun k => if k = "theme" then some [1, 2] else none }
    "theme" ["dark"]
  exact ⟨by rw [h.1]; rfl, h.2 (by simp)⟩

/-- Claim C5: after unsubscribe(key, callback) the callback receives no
event from any immediately following setState on that key, and
unsubscribing a callback that is not currently subscribed (including for a
key with no listener set) leaves the manager unchanged. -/
theorem C5_unsubscribe (α : Type) (m : StateManager α) (k : String) (c : Nat) :
    (∀ v : α, ∀ e ∈ (setState (unsubscribe m k c) k v).2, e.callback ≠ c)
    ∧ (c ∉ listenersFor m k → unsubscribe m k c = m) := by
  constructor
  · intro v e he
    rw [setState_events] at he
    simp only [List.mem_map] at he
    obtain ⟨c', hc', rfl⟩ := he
    simp only
    intro hcc
    subst hcc
    revert hc'
    unfold listenersFor unsubscribe
    cases hL : m.listeners k with
    | none => simp [hL]
    | some cs =>
      simp only [if_pos rfl, Option.getD_some]
      intro hmem
      have := List.of_mem_filter hmem
      simp at this
  · intro hno
    unfold unsubscribe
    cases hL : m.listeners k with
    | none => rfl
    | some cs =>
      have hcs : c ∉ cs := by
        intro hc
        exact hno (by unfold listenersFor; rw [hL]; exact hc)
      have hfil : cs.filter (fun x => x != c) = cs :=
        List.filter_eq_self.mpr (fun x hx => by
          simp only [bne_iff_ne, ne_eq, decide_eq_true_eq]
          intro hxc
          exact hcs (hxc ▸ hx))
      have hfe :
          (fun k' => if k' = k then some (cs.filter (fun x => x != c)) else m.listeners k')
            = m.listeners := by
        funext k'
        by_cases hk : k' = k
        · subst hk; rw [if_pos rfl, hfil, hL]
        · rw [if_neg hk]
      show { m with
              listeners := fun k' =>
                if k' = k then some (cs.filter (fun x => x != c)) else m.listeners k' } = m
      rw [hfe]

/-- Claim C5 witness: unsubscribing a callback id that is not subscribed to
the theme key is a no-op on a manager with two other subscribers. -/
theorem C5_unsubscribe_witness :
    unsubscribe
        { state := fun _ => (none : Option String),
          listeners := fun k => if k = "theme" then some [1, 2] else none }
        "theme" 5 =
      { state := fun _ => (none : Option String),
        listeners := fun k => if k = "theme" then some [1, 2] else none } :=
  (C5_unsubscribe String
    { state := fun _ => none, listeners := fun k => if k = "theme" then some [1, 2] else none }
    "theme" 5).2 (by decide)

/-- Claim C1 counterexample: the claim requires every optimistic mutation
of the pipeline, including reaction toggling, to roll back its local
change and surface a failure notification when the confirmation fails.
Concretely, toggling a reaction on the post with id 1 (likes 0, button
inactive) with a failing confirmation leaves the optimistic change in
place (likes 1, button active) and surfaces no notification: the catch
block of toggleReaction (script.js lines 664-666) only calls
console.error. -/
theorem C1_counterexample :
    (toggleReaction { posts := [{ id := 1, content := "hi", likes := 0, comments := 0,
                                  shares := 0, active := false }] } 1 false).1.posts
        = [{ id := 1, content := "hi", likes := 1, comments := 0, shares := 0, active := true }]
    ∧ (toggleReaction { posts := [{ id := 1, content := "hi", likes := 0, comments := 0,
                                    shares := 0, active := false }] } 1 false).2 = [] := by
  constructor
  · rfl
  · rfl

/-- Claim C1 (amended): post creation follows the optimistic pipeline: the
record is added to local state before the confirmation request resolves;
on failure it is removed exactly once, targeted by its id (the state
returns exactly to the pre-creation posts), with a failure notification;
on success it is left in place by the pipeline with a success
notification. Reaction toggling applies its local change immediately, but
on confirmation failure the change is not rolled back and no failure
notification is surfaced (the error is only logged). -/
theorem C1_optimistic_pipeline (pm : PostManager) (newId : Nat) (content : String)
    (hfresh : ∀ p ∈ pm.posts, p.id ≠ newId) :
    ((createPostLocal pm newId content).1.posts
        = (createPostLocal pm newId content).2 :: pm.posts
      ∧ (createPostLocal pm newId content).2.id = newId)
    ∧ createPostConfirm (createPostLocal pm newId content).1
        (createPostLocal pm newId content).2 false
        = (pm, [{ message := "Failed to create post. Please try again.", ntype := "danger",
                  duration := NOTIFICATION_TIMEOUT }])
    ∧ createPostConfirm (createPostLocal pm newId content).1
        (createPostLocal pm newId content).2 true
        = ((createPostLocal pm newId content).1,
           [{ message := "Post created successfully!", ntype := "success",
              duration := NOTIFICATION_TIMEOUT }])
    ∧ ∀ (pm' : PostManager) (postId : Nat),
        toggleReaction pm' postId false = (toggleReactionLocal pm' postId, []) := by
  refine ⟨⟨rfl, rfl⟩, ?_, rfl, fun pm' postId => rfl⟩
  unfold createPostConfirm createPostLocal
  simp only [Bool.false_eq_true, if_false]
  have hfil :
      (({ id := newId, content := content, likes := 0, comments := 0, shares := 0,
          active := false } : Post) :: pm.posts).filter (fun p => p.id != newId)
        = pm.posts := by
    rw [List.filter_cons]
    simp only [bne_self_eq_false, cond_false]
    exact List.filter_eq_self.mpr (fun p hp => by
      simpa [bne_iff_ne] using hfresh p hp)
  rw [hfil]

/-- Claim C1 witness: creating a post on an empty feed and failing the
confirmation restores the empty feed and surfaces the failure
notification. -/
theorem C1_optimistic_pipeline_witness :
    createPostConfirm (createPostLocal { posts := [] } 1 "hello").1
        (createPostLocal { posts := [] } 1 "hello").2 false
      = ({ posts := [] },
         [{ message := "Failed to create post. Please try again.", ntype := "danger",
            duration := NOTIFICATION_TIMEOUT }]) :=
  (C1_optimistic_pipeline { posts := [] } 1 "hello" (by simp)).2.1

/-- Claim C9: a file that is oversized or has an unsupported extension
fails validateFile, which shows a danger notification; processFiles never
adds it to selectedFiles (and the validation notification is among the
notifications of the processFiles call). -/
theorem C9_validation (mm : MediaManager) (files : List JsFile) (f : JsFile)
    (hmem : f ∈ files)
    (hbad : MAX_FILE_SIZE < f.size ∨ fileExtension f ∉ SUPPORTED_FORMATS) :
    (validateFile f).1 = false
    ∧ (validateFile f).2 ≠ []
    ∧ (∀ n ∈ (validateFile f).2, n ∈ (processFiles mm files).2)
    ∧ (f ∉ mm.selectedFiles → f ∉ (processFiles mm files).1.selectedFiles) := by
  have hval : (validateFile f).1 = false ∧ (validateFile f).2 ≠ [] := by
    unfold validateFile
    rcases hbad with h | h
    · rw [if_pos h]
      exact ⟨rfl, by simp⟩
    · by_cases hsz : f.size > MAX_FILE_SIZE
      · rw [if_pos hsz]
        exact ⟨rfl, by simp⟩
      · rw [if_neg hsz]
        have hnc : ¬ (SUPPORTED_FORMATS.contains (fileExtension f) = true) := by
          simpa using h
        rw [if_pos hnc]
        exact ⟨rfl, by simp⟩
  have hvn : ∀ n ∈ (validateFile f).2,
      n ∈ (files.map (fun g => (validateFile g).2)).flatten := by
    intro n hn
    exact List.mem_flatten.mpr ⟨(validateFile f).2, List.mem_map_of_mem _ hmem, hn⟩
  refine ⟨hval.1, hval.2, ?_, ?_⟩
  · intro n hn
    simp only [processFiles]
    split_ifs with h1 h2
    · exact List.mem_append_left _ (hvn n hn)
    · exact List.mem_append_left _ (hvn n hn)
    · exact hvn n hn
  · intro hnot
    simp only [processFiles]
    split_ifs with h1 h2
    · exact hnot
    · exact hnot
    · intro hmem'
      rcases List.mem_append.mp hmem' with h | h
      · exact hnot h
      · have := (List.mem_filter.mp h).2
        rw [hval.1] at this
        cases this

/-- Claim C9 witness: a pdf file is rejected and never admitted. -/
theorem C9_validation_witness :
    (validateFile { name := "notes.pdf", size := 100 }).1 = false
    ∧ (validateFile { name := "notes.pdf", size := 100 }).2 ≠ []
    ∧ ({ name := "notes.pdf", size := 100 } : JsFile)
        ∉ (processFiles initMM [{ name := "notes.pdf", size := 100 }]).1.selectedFiles := by
  have h := C9_validation initMM [{ name := "notes.pdf", size := 100 }]
    { name := "notes.pdf", size := 100 } (by simp) (Or.inr (by decide))
  exact ⟨h.1, h.2.1, h.2.2.2 (by simp [initMM])⟩

/-- Claim C10: the selected-file list never exceeds maxFiles = 10: it
starts empty, processFiles preserves the bound, removeFile and clearAll
only shrink the list; and admission is all-or-nothing: when the current
count plus the count of valid incoming files would exceed 10, processFiles
adds no file from the batch and shows the cap warning. -/
theorem C10_file_cap (mm : MediaManager) (files : List JsFile) (fileName : String) :
    initMM.selectedFiles.length ≤ maxFiles
    ∧ (mm.selectedFiles.length ≤ maxFiles →
        (processFiles mm files).1.selectedFiles.length ≤ maxFiles)
    ∧ (mm.selectedFiles.length ≤ maxFiles →
        (removeFile mm fileName).selectedFiles.length ≤ maxFiles)
    ∧ (clearAll mm).selectedFiles.length ≤ maxFiles
    ∧ (mm.selectedFiles.length ≤ maxFiles →
        maxFiles < mm.selectedFiles.length
          + (files.filter (fun f => (validateFile f).1)).length →
        (processFiles mm files).1 = mm
        ∧ { message := "Maximum 10 files allowed", ntype := "warning",
            duration := NOTIFICATION_TIMEOUT } ∈ (processFiles mm files).2) := by
  refine ⟨by simp [initMM, maxFiles], ?_, ?_, by simp [clearAll, maxFiles], ?_⟩
  · intro hle
    simp only [processFiles]
    split_ifs with h1 h2
    · exact hle
    · exact hle
    · simp only [List.length_append]
      omega
  · intro hle
    simp only [removeFile]
    exact le_trans (List.length_filter_le _ _) hle
  · intro hle hover
    simp only [processFiles]
    split_ifs with h1
    · omega
    · exact ⟨rfl, List.mem_append_right _ (List.mem_singleton.mpr rfl)⟩

/-- Claim C10 witness: with ten files already selected, a batch with one
valid file is rejected wholesale and the cap warning is shown. -/
theorem C10_file_cap_witness :
    (processFiles { selectedFiles := List.replicate 10 { name := "a.jpg", size := 1 } }
        [{ name := "b.jpg", size := 1 }]).1
      = { selectedFiles := List.replicate 10 { name := "a.jpg", size := 1 } }
    ∧ { message := "Maximum 10 files allowed", ntype := "warning",
        duration := NOTIFICATION_TIMEOUT }
        ∈ (processFiles { selectedFiles := List.replicate 10 { name := "a.jpg", size := 1 } }
            [{ name := "b.jpg", size := 1 }]).2 :=
  (C10_file_cap { selectedFiles := List.replicate 10 { name := "a.jpg", size := 1 } }
    [{ name := "b.jpg", size := 1 }] "x").2.2.2.2 (by decide) (by decide)

/-- Claim C6: a notification shown with positive duration T is tracked
immediately after the show call and is no longer tracked once T plus the
fixed 300 ms removal transition has elapsed; shown with duration 0 or
negative, no automatic removal is ever scheduled and it remains tracked at
every later time (until manually removed). Stated for a quiescent queue
(no timer pending). -/
theorem C6_show_duration (nm : NotificationManager) (msg ty : String) (T : Int)
    (htm : nm.timers = []) :
    (0 < T →
      (showToast nm 0 msg ty T).2
          ∈ ((showToast nm 0 msg ty T).1.notifications.map Notif.nid)
      ∧ (showToast nm 0 msg ty T).2
          ∉ ((runUntil (showToast nm 0 msg ty T).1 (T.toNat + 300)).notifications.map Notif.nid))
    ∧ (T ≤ 0 →
      (showToast nm 0 msg ty T).1.timers = []
      ∧ ∀ t : Nat,
          runUntil (showToast nm 0 msg ty T).1 t = (showToast nm 0 msg ty T).1
          ∧ (showToast nm 0 msg ty T).2
              ∈ ((runUntil (showToast nm 0 msg ty T).1 t).notifications.map Notif.nid)) := by
  obtain ⟨nots, att, tims, rem, nid⟩ := nm
  have htm' : tims = [] := htm
  subst htm'
  constructor
  · intro hT
    have hs1 : (showToast ⟨nots, att, [], rem, nid⟩ 0 msg ty T).1
        = ⟨nots ++ [⟨nid, msg, ty⟩], att ++ [nid],
           [(T.toNat, TimerAct.autoRemove nid)], rem, nid + 1⟩ := by
      simp [showToast, hT]
    have hs2 : (showToast ⟨nots, att, [], rem, nid⟩ 0 msg ty T).2 = nid := rfl
    rw [hs1, hs2]
    refine ⟨by simp, ?_⟩
    have e1 : runUntil
          (⟨nots ++ [⟨nid, msg, ty⟩], att ++ [nid],
            [(T.toNat, TimerAct.autoRemove nid)], rem, nid + 1⟩ : NotificationManager)
          (T.toNat + 300)
        = runUntil
            (execTimer ⟨nots ++ [⟨nid, msg, ty⟩], att ++ [nid], [], rem, nid + 1⟩
              T.toNat (TimerAct.autoRemove nid))
            (T.toNat + 300) :=
      runUntil_step (dueMin_single _ _ _ (Nat.le_add_right _ _)) (firstAt_head _ _ _)
    have e2 : execTimer
          (⟨nots ++ [⟨nid, msg, ty⟩], att ++ [nid], [], rem, nid + 1⟩ : NotificationManager)
          T.toNat (TimerAct.autoRemove nid)
        = ⟨nots ++ [⟨nid, msg, ty⟩], att ++ [nid],
           [(T.toNat + 300, TimerAct.finishRemove nid)], rem, nid + 1⟩ := by
      simp [execTimer, remove]
    have e3 : runUntil
          (⟨nots ++ [⟨nid, msg, ty⟩], att ++ [nid],
            [(T.toNat + 300, TimerAct.finishRemove nid)], rem, nid + 1⟩ : NotificationManager)
          (T.toNat + 300)
        = runUntil
            (execTimer ⟨nots ++ [⟨nid, msg, ty⟩], att ++ [nid], [], rem, nid + 1⟩
              (T.toNat + 300) (TimerAct.finishRemove nid))
            (T.toNat + 300) :=
      runUntil_step (dueMin_single _ _ _ (Nat.le_refl _)) (firstAt_head _ _ _)
    have e4 : execTimer
          (⟨nots ++ [⟨nid, msg, ty⟩], att ++ [nid], [], rem, nid + 1⟩ : NotificationManager)
          (T.toNat + 300) (TimerAct.finishRemove nid)
        = (⟨(nots ++ [(⟨nid, msg, ty⟩ : Notif)]).filter (fun n => n.nid != nid),
            (att ++ [nid]).filter (fun x => x != nid), [], rem ++ [nid], nid + 1⟩ :
              NotificationManager) := by
      simp [execTimer, finishRemoveRun]
    have e5 : runUntil
          (⟨(nots ++ [(⟨nid, msg, ty⟩ : Notif)]).filter (fun n => n.nid != nid),
            (att ++ [nid]).filter (fun x => x != nid), [], rem ++ [nid], nid + 1⟩ :
              NotificationManager)
          (T.toNat + 300)
        = (⟨(nots ++ [(⟨nid, msg, ty⟩ : Notif)]).filter (fun n => n.nid != nid),
            (att ++ [nid]).filter (fun x => x != nid), [], rem ++ [nid], nid + 1⟩ :
              NotificationManager) :=
      runUntil_nil rfl
    rw [e1, e2, e3, e4, e5]
    intro hmem
    simp only [List.mem_map] at hmem
    obtain ⟨n, hn, hnid⟩ := hmem
    have hkeep := List.of_mem_filter hn
    rw [hnid] at hkeep
    simp at hkeep
  · intro hT
    have hnot : ¬ (T > 0) := not_lt.mpr hT
    have hs1 : (showToast ⟨nots, att, [], rem, nid⟩ 0 msg ty T).1
        = ⟨nots ++ [⟨nid, msg, ty⟩], att ++ [nid], [], rem, nid + 1⟩ := by
      simp [showToast, hnot]
    refine ⟨by rw [hs1], ?_⟩
    intro t
    have hrun : runUntil (showToast ⟨nots, att, [], rem, nid⟩ 0 msg ty T).1 t
        = (showToast ⟨nots, att, [], rem, nid⟩ 0 msg ty T).1 := by
      apply runUntil_nil
      rw [hs1]
    refine ⟨hrun, ?_⟩
    rw [hrun, hs1]
    simp [showToast]

/-- Claim C6 witness: showing a notification for 5000 ms on the fresh
manager: it is tracked immediately and untracked after 5300 ms. -/
theorem C6_show_duration_witness :
    (showToast initNM 0 "Saved" "success" 5000).2
        ∈ ((showToast initNM 0 "Saved" "success" 5000).1.notifications.map Notif.nid)
    ∧ (showToast initNM 0 "Saved" "success" 5000).2
        ∉ ((runUntil (showToast initNM 0 "Saved" "success" 5000).1
              ((5000 : Int).toNat + 300)).notifications.map Notif.nid) :=
  (C6_show_duration initNM "Saved" "success" 5000 rfl).1 (by decide)

/-- Claim C7: NotificationManager.remove is idempotent: removing an id not
among the tracked notifications (unknown or already removed) leaves the
manager unchanged; and calling remove twice on the same id during the
300 ms removal window is safe: after the window the state equals the state
of a single remove, the notification is no longer tracked, and exactly one
removal event (one removeChild of the toast element) has happened. -/
theorem C7_remove_idempotent :
    (∀ (nm : NotificationManager) (now nid : Nat),
        (∀ n ∈ nm.notifications, n.nid ≠ nid) → remove nm now nid = nm)
    ∧ ∀ (msg ty : String) (t : Nat),
        runUntil (remove (remove (showToast initNM 0 msg ty 0).1 t 0) t 0) (t + 300)
          = runUntil (remove (showToast initNM 0 msg ty 0).1 t 0) (t + 300)
        ∧ (runUntil (remove (remove (showToast initNM 0 msg ty 0).1 t 0) t 0)
            (t + 300)).removedEvents = [0]
        ∧ (runUntil (remove (remove (showToast initNM 0 msg ty 0).1 t 0) t 0)
            (t + 300)).notifications = [] := by
  constructor
  · intro nm now nid h
    have hc : ¬ (nm.notifications.any (fun n => n.nid == nid) = true) := by
      rw [List.any_eq_true]
      rintro ⟨n, hn, hb⟩
      exact h n hn (by simpa using hb)
    unfold remove
    rw [if_neg hc]
  · intro msg ty t
    have hshow : (showToast initNM 0 msg ty 0).1
        = ⟨[⟨0, msg, ty⟩], [0], [], [], 1⟩ := by
      simp [showToast, initNM]
    have hrm1 : remove (⟨[⟨0, msg, ty⟩], [0], [], [], 1⟩ : NotificationManager) t 0
        = ⟨[⟨0, msg, ty⟩], [0], [(t + 300, TimerAct.finishRemove 0)], [], 1⟩ := by
      simp [remove]
    have hrm2 : remove
          (⟨[⟨0, msg, ty⟩], [0], [(t + 300, TimerAct.finishRemove 0)], [], 1⟩ :
            NotificationManager) t 0
        = ⟨[⟨0, msg, ty⟩], [0],
           [(t + 300, TimerAct.finishRemove 0), (t + 300, TimerAct.finishRemove 0)], [], 1⟩ := by
      simp [remove]
    have e1 : runUntil
          (⟨[⟨0, msg, ty⟩], [0],
            [(t + 300, TimerAct.finishRemove 0), (t + 300, TimerAct.finishRemove 0)], [], 1⟩ :
              NotificationManager) (t + 300)
        = runUntil
            (execTimer ⟨[⟨0, msg, ty⟩], [0], [(t + 300, TimerAct.finishRemove 0)], [], 1⟩
              (t + 300) (TimerAct.finishRemove 0)) (t + 300) :=
      runUntil_step (dueMin_pair _ _ _ _ (Nat.le_refl _)) (firstAt_head _ _ _)
    have e2 : execTimer
          (⟨[⟨0, msg, ty⟩], [0], [(t + 300, TimerAct.finishRemove 0)], [], 1⟩ :
            NotificationManager) (t + 300) (TimerAct.finishRemove 0)
        = ⟨[], [], [(t + 300, TimerAct.finishRemove 0)], [0], 1⟩ := by
      simp [execTimer, finishRemoveRun]
    have e3 : runUntil
          (⟨[], [], [(t + 300, TimerAct.finishRemove 0)], [0], 1⟩ : NotificationManager)
          (t + 300)
        = runUntil (execTimer ⟨[], [], [], [0], 1⟩ (t + 300) (TimerAct.finishRemove 0))
            (t + 300) :=
      runUntil_step (dueMin_single _ _ _ (Nat.le_refl _)) (firstAt_head _ _ _)
    have e4 : execTimer (⟨[], [], [], [0], 1⟩ : NotificationManager) (t + 300)
          (TimerAct.finishRemove 0)
        = ⟨[], [], [], [0], 1⟩ := by
      simp [execTimer, finishRemoveRun]
    have e5 : runUntil (⟨[], [], [], [0], 1⟩ : NotificationManager) (t + 300)
        = ⟨[], [], [], [0], 1⟩ := runUntil_nil rfl
    have f1 : runUntil
          (⟨[⟨0, msg, ty⟩], [0], [(t + 300, TimerAct.finishRemove 0)], [], 1⟩ :
            NotificationManager) (t + 300)
        = runUntil
            (execTimer ⟨[⟨0, msg, ty⟩], [0], [], [], 1⟩ (t + 300) (TimerAct.finishRemove 0))
            (t + 300) :=
      runUntil_step (dueMin_single _ _ _ (Nat.le_refl _)) (firstAt_head _ _ _)
    have f2 : execTimer (⟨[⟨0, msg, ty⟩], [0], [], [], 1⟩ : NotificationManager) (t + 300)
          (TimerAct.finishRemove 0)
        = ⟨[], [], [], [0], 1⟩ := by
      simp [execTimer, finishRemoveRun]
    rw [hshow, hrm1, hrm2, e1, e2, e3, e4, e5, f1, f2, e5]
    exact ⟨rfl, rfl, rfl⟩

/-- Claim C7 witness: removing an unknown id from the fresh manager is a
no-op, and the concrete double-remove of a duration-0 notification at
time 0 records exactly one removal event. -/
theorem C7_remove_idempotent_witness :
    remove initNM 0 5 = initNM
    ∧ (runUntil (remove (remove (showToast initNM 0 "x" "info" 0).1 0 0) 0 0)
          (0 + 300)).removedEvents = [0] :=
  ⟨C7_remove_idempotent.1 initNM 0 5 (by simp [initNM]),
   (C7_remove_idempotent.2 "x" "info" 0).2.1⟩

end ChatSpeed
